import Mathlib

/-!
Verification development for the Hyperliquid client fork.

Shallow embedding of the client's core logic:
* `NonceManager` (src/src/clients/customexchange.ts, lines 94-112) as an
  explicit state machine over an external clock;
* the response validator and request path (lines 663-741);
* the subscription handlers' per-message matching predicates
  (src/src/clients/subscription.ts);
* the derived trading operations `cancelAllOrders`, `cancelAllSpotOrders`,
  `cancelAllPerpOrders`, `marketClose` and the slippage-price computation
  (src/src/clients/customexchange.ts, lines 356-548), with JS exceptions
  modelled by `Except`;
* chain-id resolution (lines 680-716);
* the multicall balance helper (src/src/evm/multicall.ts).

JS numbers that the code treats as exact quantities (prices, sizes,
slippage fractions) are modelled as rationals; `toFixed` is modelled as
round-half-up to the given number of decimals.  JS string operations are
modelled on the character lists underlying Lean strings, since the
builtin `String` operations do not reduce in the kernel.
-/

namespace HL

/-- Model of JS `String.prototype.toLowerCase` (character-wise). -/
def strToLower (s : String) : String := ⟨s.data.map Char.toLower⟩

/-- Model of JS `String.prototype.endsWith`. -/
def strEndsWith (s t : String) : Bool := t.data.isSuffixOf s.data

/-- Model of JS `String.prototype.includes` for a single character. -/
def strContainsChar (s : String) (c : Char) : Bool := s.data.contains c

/-- Model of JS `String.prototype.includes` for a substring. -/
def strContainsSub (s t : String) : Bool := s.data.tails.any (fun l => t.data.isPrefixOf l)

/-- Model of JS `String.prototype.startsWith`. -/
def strStartsWith (s t : String) : Bool := t.data.isPrefixOf s.data

/-!
## NonceManager (customexchange.ts lines 94-112)

`getNonce` reads the wall clock (`Date.now()`); the clock reading is made
an explicit argument, so a sequence of calls is driven by a list of
arbitrary clock values.
-/

/-- State of the default nonce manager: `private lastNonce = 0`. -/
structure NonceManager where
  lastNonce : Nat := 0
deriving Repr, DecidableEq

/-- `getNonce()` from the source, with the `Date.now()` reading `now` passed
in explicitly.  Returns the issued nonce and the updated manager state. -/
def NonceManager.getNonce (self : NonceManager) (now : Nat) : Nat × NonceManager :=
  if now ≤ self.lastNonce then
    (self.lastNonce + 1, { lastNonce := self.lastNonce + 1 })
  else
    (now, { lastNonce := now })

/-- Run a sequence of `getNonce` calls against a list of clock readings,
collecting the returned nonces. -/
def runNonceCalls : NonceManager → List Nat → List Nat
  | _, [] => []
  | s, now :: rest =>
    let r := s.getNonce now
    r.1 :: runNonceCalls r.2 rest

/-!
## ResponseValidator (customexchange.ts lines 663-741)
-/

/-- One entry of `response.data.statuses` in a bulk (`order`/`cancel`)
response: either a plain string status or an object, the latter recorded
by the list of its field names (the validator only asks whether the field
`"error"` is present, via `typeof status === "object" && "error" in status`). -/
inductive BulkStatus
  | strStatus (s : String)
  | objStatus (fields : List String)
deriving Repr, DecidableEq

/-- The validator's per-item test: the entry is an object and has an
`"error"` field. -/
def BulkStatus.isErrorObj : BulkStatus → Bool
  | .strStatus _ => false
  | .objStatus fields => fields.contains "error"

/-- A response envelope, flattened: `status` is `"ok"` or `"err"`,
`rtype` is `response.response.type`, and `statuses` is
`response.response.data.statuses` (empty for non-bulk responses, which
carry no status list). -/
structure ResponseEnvelope where
  status : String
  rtype : String
  statuses : List BulkStatus
deriving Repr, DecidableEq

/-- The error raised by the validator; it carries the whole envelope
(`throw new ApiRequestError(response)`). -/
inductive ApiError
  | apiRequestError (e : ResponseEnvelope)
deriving Repr, DecidableEq

/-- `_validateResponse` (lines 723-741): raise on `status == "err"`, or on a
bulk `order`/`cancel` response one of whose statuses is an error object. -/
def validateResponse (r : ResponseEnvelope) : Except ApiError Unit :=
  if r.status = "err" then
    .error (.apiRequestError r)
  else if r.rtype = "order" ∨ r.rtype = "cancel" then
    if r.statuses.any BulkStatus.isErrorObj then
      .error (.apiRequestError r)
    else
      .ok ()
  else
    .ok ()

/-- `_request` (lines 663-678): validate the transport's response, then hand
the envelope back unchanged. -/
def requestPath (r : ResponseEnvelope) : Except ApiError ResponseEnvelope :=
  match validateResponse r with
  | .error e => .error e
  | .ok _ => .ok r

/-!
## Subscription message matching (subscription.ts)

Each subscribe method registers a transport callback; the callback decides
whether the subscription's listener is invoked for an inbound event.  The
decision depends only on the subscription's request parameters and on the
inbound payload, so it is embedded as a boolean predicate per method,
copied from the `if` guarding the `listener(...)` call.  `requestCoin` is
the (possibly reverse-converted) coin the subscription was registered
with, `subUser` the user argument of the subscribe call.
-/

/-- `bbo` handler guard (subscription.ts line 328): `e.detail.coin === requestCoin`. -/
def bboInvokes (requestCoin msgCoin : String) : Bool := msgCoin == requestCoin

/-- `activeAssetCtx` handler guard (line 183): `e.detail.coin === requestCoin`. -/
def activeAssetCtxInvokes (requestCoin msgCoin : String) : Bool := msgCoin == requestCoin

/-- `candle` handler guard (line 374): `e.detail.s === requestCoin`. -/
def candleInvokes (requestCoin msgS : String) : Bool := msgS == requestCoin

/-- `l2Book` handler guard (line 482): `e.detail.coin === requestCoin`. -/
def l2BookInvokes (requestCoin msgCoin : String) : Bool := msgCoin == requestCoin

/-- `trades` handler guard (line 602): `e.detail[0]?.coin === requestCoin`,
where `msgCoins` are the coins of the trades in the delivered batch. -/
def tradesInvokes (requestCoin : String) (msgCoins : List String) : Bool :=
  match msgCoins.head? with
  | some c => c == requestCoin
  | none => false

/-- `activeAssetData` handler guard (line 232):
`e.detail.user.toLowerCase() === args.user.toLowerCase() && e.detail.coin === requestCoin`. -/
def activeAssetDataInvokes (requestCoin subUser msgCoin msgUser : String) : Bool :=
  strToLower msgUser == strToLower subUser && msgCoin == requestCoin

/-- `userFills` handler guard (line 679): `e.detail.user === args.user.toLowerCase()`. -/
def userFillsInvokes (subUser msgUser : String) : Bool := msgUser == strToLower subUser

/-- An inbound event on the shared `orderUpdates` channel.  The venue keys
order-update streams per user; `originUser` is the user whose updates the
message carries (transport-level identity of the message), `payload` the
order-status list the handler receives as `e.detail`. -/
structure OrderUpdatesEvent where
  originUser : String
  payload : List String
deriving Repr, DecidableEq

/-- `orderUpdates` handler (lines 559-566): the listener is invoked for every
event on the channel — the source has no guard at all. -/
def orderUpdatesInvokes (_subUser : String) (_e : OrderUpdatesEvent) : Bool := true

/-- An inbound event on the shared `notification` channel, tagged with the
user it was generated for (`originUser`); `payload` is `e.detail.notification`. -/
structure NotificationEvent where
  originUser : String
  payload : String
deriving Repr, DecidableEq

/-- `notification` handler (lines 520-527): the listener is invoked for every
event on the channel — the source has no guard at all. -/
def notificationInvokes (_subUser : String) (_e : NotificationEvent) : Bool := true

/-!
## Derived trading operations (customexchange.ts lines 271-570)

JS exceptions are modelled with `Except RuntimeError`: `typeError` is the
`TypeError` thrown by dereferencing `undefined` (the `symbolConversion!`
accesses when the client was constructed without a symbol-conversion
instance), `jsError` is `throw new Error(message)`.  A `.error` result
means the operation aborted before any cancel/order action was
constructed, signed or submitted.
-/

/-- An open order as consumed by the cancel helpers: its (initially
venue-internal) coin and its order id `oid`. -/
structure OpenOrder where
  coin : String
  oid : Nat
deriving Repr, DecidableEq

inductive RuntimeError
  | typeError (msg : String)
  | jsError (msg : String)
deriving Repr, DecidableEq

/-- The slice of the external `SymbolConversion` contract the derived
operations consume: `convertSymbol` (internal → display) and the asset
catalog returned by `getAllAssets`. -/
structure SymbolConversionInst where
  convertSymbol : String → String
  allAssetsPerp : List String
  allAssetsSpot : List String

/-- A member access `this.symbolConversion!.<member>`: when the client was
constructed without an instance, JS throws a `TypeError` (reading
`member` of `undefined`). -/
def derefSC (sc : Option SymbolConversionInst) (member : String) :
    Except RuntimeError SymbolConversionInst :=
  match sc with
  | none => .error (.typeError (member ++ " of undefined"))
  | some s => .ok s

/-- The conversion loop shared by the three cancel helpers
(e.g. lines 363-365): `for (let order of openOrders) { order.coin = await
this.symbolConversion!.convertSymbol(order.coin); }`.  The dereference
happens only when the loop body runs, i.e. on a nonempty order list. -/
def convertOrderCoins (sc : Option SymbolConversionInst) :
    List OpenOrder → Except RuntimeError (List OpenOrder)
  | [] => .ok []
  | o :: rest => do
    let s ← derefSC sc "convertSymbol"
    let rest2 ← convertOrderCoins sc rest
    .ok ({ o with coin := s.convertSymbol o.coin } :: rest2)

/-- `cancelAllOrders` (lines 356-392): the fetched open orders are passed in;
the result is the `cancels` batch (pairs of display coin and order id)
handed to `this.cancel` in the single bulk cancel action. -/
def cancelAllOrders (sc : Option SymbolConversionInst) (symbol : Option String)
    (openOrders : List OpenOrder) : Except RuntimeError (List (String × Nat)) := do
  let converted ← convertOrderCoins sc openOrders
  let ordersToCancel :=
    match symbol with
    | some s => converted.filter (fun (o : OpenOrder) => o.coin == s)
    | none => converted
  if ordersToCancel.isEmpty then
    .error (.jsError "No orders to cancel")
  else
    .ok (ordersToCancel.map (fun (o : OpenOrder) => (o.coin, o.oid)))

/-- The spot filter of `cancelAllSpotOrders` (lines 410-415):
`spotSymbols.has(coin) || (!coin.endsWith('-PERP') && coin.includes('-'))`. -/
def isSpotOrderCoin (spotSymbols : List String) (coin : String) : Bool :=
  spotSymbols.contains coin || (!(strEndsWith coin "-PERP") && strContainsChar coin '-')

/-- `cancelAllSpotOrders` (lines 395-433).  `getAllAssets` (lines 271-273)
dereferences `symbolConversion!` before the conversion loop runs. -/
def cancelAllSpotOrders (sc : Option SymbolConversionInst)
    (openOrders : List OpenOrder) : Except RuntimeError (List (String × Nat)) := do
  let s ← derefSC sc "getAllAssets"
  let spotSymbols := s.allAssetsSpot
  let converted ← convertOrderCoins sc openOrders
  let spotOrders := converted.filter (fun o => isSpotOrderCoin spotSymbols o.coin)
  if spotOrders.isEmpty then
    .error (.jsError "No spot orders to cancel")
  else
    .ok (spotOrders.map (fun o => (o.coin, o.oid)))

/-- The perp filter of `cancelAllPerpOrders` (lines 452-455):
`perpSymbols.has(coin) || coin.endsWith('-PERP')`. -/
def isPerpOrderCoin (perpSymbols : List String) (coin : String) : Bool :=
  perpSymbols.contains coin || strEndsWith coin "-PERP"

/-- `cancelAllPerpOrders` (lines 435-474). -/
def cancelAllPerpOrders (sc : Option SymbolConversionInst)
    (openOrders : List OpenOrder) : Except RuntimeError (List (String × Nat)) := do
  let s ← derefSC sc "getAllAssets"
  let perpSymbols := s.allAssetsPerp
  let converted ← convertOrderCoins sc openOrders
  let perpOrders := converted.filter (fun o => isPerpOrderCoin perpSymbols o.coin)
  if perpOrders.isEmpty then
    .error (.jsError "No perpetual orders to cancel")
  else
    .ok (perpOrders.map (fun o => (o.coin, o.oid)))

/-!
## Market close and slippage price (lines 478-548)
-/

/-- JS `Number(x.toFixed(d))` on an exact value: round half-up to `d`
decimal places. -/
def roundToDecimals (d : Nat) (x : ℚ) : ℚ :=
  ((round (x * (10 : ℚ) ^ d) : ℤ) : ℚ) / (10 : ℚ) ^ d

/-- The spot test of `getSlippagePrice` (line 491): `symbol.includes('-USDC')`. -/
def isSpotSymbol (symbol : String) : Bool := strContainsSub symbol "-USDC"

/-- Reference-price defaulting in `getSlippagePrice` (lines 486-489):
`if (!px) px = Number(allMids[symbol])` — a missing *or zero* caller price
falls back to the latest mid `mid`. -/
def effectiveRefPx (pxArg : Option ℚ) (mid : ℚ) : ℚ :=
  match pxArg with
  | some p => if p = 0 then mid else p
  | none => mid

/-- `getSlippagePrice` (lines 480-500).  `d` is the decimal precision of the
effective reference price (the source computes it from the price's decimal
rendering: `px.toString().split('.')[1]?.length || 0`); Nat subtraction
`d - 1` is exactly the source's `Math.max(0, decimals - 1)`. -/
def getSlippagePrice (symbol : String) (isBuy : Bool) (slippage : ℚ)
    (pxArg : Option ℚ) (mid : ℚ) (d : Nat) : ℚ :=
  let px := effectiveRefPx pxArg mid
  let px2 := px * (if isBuy then 1 + slippage else 1 - slippage)
  roundToDecimals (if isSpotSymbol symbol then 8 else d - 1) px2

/-- One entry of `clearinghouseState.assetPositions[i].position`: the coin
and the signed size `szi` (the source parses it from a decimal string). -/
structure AssetPosition where
  coin : String
  szi : ℚ
deriving Repr, DecidableEq

/-- The immediate-or-cancel order `marketClose` submits: asset `a` (the
display symbol), side `b` (`true` = buy), size `s`, limit price `p`,
reduce-only flag `r`, optional client order id `cloid`.  The source fixes
`t: { limit: { tif: 'Ioc' } }` and `grouping: "na"`. -/
structure IocOrder where
  a : String
  b : Bool
  s : ℚ
  p : ℚ
  r : Bool
  cloid : Option String
deriving Repr, DecidableEq

/-- `marketClose` (lines 504-548).  The position list is the fetched
clearinghouse snapshot; the source loop takes the first position whose
coin equals `symbol` and returns from inside the loop, throwing
`No position found for <symbol>` when the loop finds none.  `size? = some 0`
behaves like no size (`size || Math.abs(szi)` — JS falsiness). -/
def marketClose (symbol : String) (size? : Option ℚ) (pxArg : Option ℚ)
    (slippage : ℚ) (mid : ℚ) (d : Nat) (cloid : Option String)
    (positions : List AssetPosition) : Except RuntimeError IocOrder :=
  match positions.find? (fun pos => pos.coin == symbol) with
  | some pos =>
    let szi := pos.szi
    let closeSize :=
      match size? with
      | some sz => if sz = 0 then |szi| else sz
      | none => |szi|
    let isBuy : Bool := decide (szi < 0)
    let slippagePrice := getSlippagePrice symbol isBuy slippage pxArg mid d
    .ok { a := symbol, b := isBuy, s := closeSize, p := slippagePrice,
          r := true, cloid := cloid }
  | none => .error (.jsError ("No position found for " ++ symbol))

/-!
## Chain-id resolution (customexchange.ts lines 680-716)

The wallet abstraction is modelled by what the source can observe of it:
which type guard it satisfies, and what its chain-reporting capability
returns.  `viem`/`ethers`/`ethersV5` carry `none` when the wallet does
not expose `getChainId` / `provider.getNetwork`; `windowEthereum` carries
the result list of the `eth_chainId` request (the source destructures its
first element).  `otherWallet` matches none of the type guards.
-/

inductive Wallet
  | viem (chainId : Option Nat)
  | ethers (chainId : Option Nat)
  | ethersV5 (chainId : Option Nat)
  | windowEthereum (resp : List String)
  | otherWallet
deriving Repr, DecidableEq

/-- JS `` `0x${chainId.toString(16)}` ``. -/
def toHexChainId (n : Nat) : String := "0x" ++ String.mk (Nat.toDigits 16 n)

/-- The static default of line 703: `0x66eee` for testnet, `0xa4b1` for
mainnet. -/
def defaultChainId (isTestnet : Bool) : String :=
  if isTestnet then "0x66eee" else "0xa4b1"

/-- `_guessSignatureChainId` (lines 680-704).  `none` models the JS value
`undefined` (only reachable through an empty `eth_chainId` result list);
every branch that finds no wallet-reported chain falls through to the
static default — the function has no throw. -/
def guessSignatureChainId (w : Wallet) (isTestnet : Bool) : Option String :=
  match w with
  | .viem (some c) => some (toHexChainId c)
  | .ethers (some c) => some (toHexChainId c)
  | .ethersV5 (some c) => some (toHexChainId c)
  | .windowEthereum resp => resp.head?
  | _ => some (defaultChainId isTestnet)

/-- The constructor default plus `_getSignatureChainId` (lines 200 and
713-716): an explicit `signatureChainId` config (a literal, or a
resolvable modelled by its resolved value) is returned as-is; otherwise
`_guessSignatureChainId` runs. -/
def getSignatureChainId (config : Option String) (w : Wallet) (isTestnet : Bool) :
    Option String :=
  match config with
  | some c => some c
  | none => guessSignatureChainId w isTestnet

/-!
## Multicall balance helper (src/src/evm/multicall.ts)
-/

/-- Input entry of `getTokenBalances`. -/
structure TokenInfo where
  address : String
  symbol : Option String
  decimals : Option Nat
deriving Repr, DecidableEq

/-- Output entry.  `formattedBalance` (a presentation-only decimal string)
is omitted from the embedding. -/
structure TokenBalance where
  address : String
  symbol : Option String
  balance : Nat
  decimals : Option Nat
deriving Repr, DecidableEq

/-- Value of a hex digit, or `none` for a non-hex character. -/
def hexDigitVal? (c : Char) : Option Nat :=
  if '0' ≤ c ∧ c ≤ '9' then some (c.toNat - '0'.toNat)
  else if 'a' ≤ c ∧ c ≤ 'f' then some (c.toNat - 'a'.toNat + 10)
  else if 'A' ≤ c ∧ c ≤ 'F' then some (c.toNat - 'A'.toNat + 10)
  else none

/-- Accumulating hex parse; fails on the first non-hex character. -/
def parseHexAux (acc : Nat) : List Char → Option Nat
  | [] => some acc
  | c :: cs =>
    match hexDigitVal? c with
    | none => none
    | some v => parseHexAux (acc * 16 + v) cs

/-- JS `BigInt(s)` on a `0x`-prefixed hex literal as the decoding loop
builds them: requires the prefix `0x` followed by at least one hex digit,
otherwise the conversion throws — modelled by `none`. -/
def parseBigIntHex? (s : String) : Option Nat :=
  match s.data with
  | c0 :: c1 :: rest =>
    if c0 = '0' ∧ c1 = 'x' ∧ rest ≠ [] then parseHexAux 0 rest else none
  | _ => none

/-- Per-entry decoding of `getTokenBalances` (lines 118-167): a missing
(`undefined`), empty or `"0x"` result yields balance `0`; otherwise the
result (with `0x` prepended when absent) is converted with `BigInt`,
falling back to `0` when the conversion throws. -/
def decodeReturnData (data : Option String) : Nat :=
  match data with
  | none => 0
  | some d =>
    if d = "" ∨ d = "0x" then 0
    else
      let hexValue := if strStartsWith d "0x" then d else "0x" ++ d
      (parseBigIntHex? hexValue).getD 0

/-- The per-index processing loop of `getTokenBalances`: entry `i` pairs
`tokens[i]` with `returnData[i]` (missing when the result array is
shorter). -/
def processBalances (tokens : List TokenInfo) (returnData : List String) :
    List TokenBalance :=
  tokens.enum.map (fun it =>
    { address := it.2.address
      symbol := it.2.symbol
      balance := decodeReturnData (returnData.get? it.1)
      decimals := it.2.decimals })

/-- Result shape of `getTokenBalances`. -/
structure BalanceQueryResult where
  walletAddress : String
  blockNumber : Option Nat
  balances : List TokenBalance
deriving Repr, DecidableEq

/-- `getTokenBalances` (lines 89-182).  The multicall round-trip is an
argument: `.ok (blockNumber, returnData)` for a successful aggregate
call, `.error` when the request rejects — the outer `catch` (lines
175-181) then resolves with the wallet address, no block number and an
empty balance list instead of rethrowing. -/
def getTokenBalances (walletAddress : String) (tokens : List TokenInfo)
    (multicallResult : Except String (Nat × List String)) : BalanceQueryResult :=
  match multicallResult with
  | .ok (blockNumber, returnData) =>
    { walletAddress := walletAddress
      blockNumber := some blockNumber
      balances := processBalances tokens returnData }
  | .error _ =>
    { walletAddress := walletAddress
      blockNumber := none
      balances := [] }

/-- The zero address used for the native token. -/
def zeroAddress : String := "0x0000000000000000000000000000000000000000"

/-- `getNativeBalance` (lines 189-221): on success the reported value, on
any error a zero HYPE balance — never a rejection. -/
def getNativeBalance (walletAddress : String) (result : Except String Nat) :
    TokenBalance :=
  match result with
  | .ok v =>
    { address := zeroAddress, symbol := some "HYPE", balance := v, decimals := some 18 }
  | .error _ =>
    { address := zeroAddress, symbol := some "HYPE", balance := 0, decimals := some 18 }

end HL

namespace HL

/-!
## Helper lemmas
-/

/-- `getNonce` always issues a nonce strictly above the stored one. -/
theorem getNonce_gt_lastNonce (s : NonceManager) (now : Nat) :
    s.lastNonce < (s.getNonce now).1 := by
  unfold NonceManager.getNonce
  split
  · simp
  · simp
    omega

/-- `getNonce` stores exactly the nonce it returns. -/
theorem getNonce_stores_issued (s : NonceManager) (now : Nat) :
    (s.getNonce now).2.lastNonce = (s.getNonce now).1 := by
  unfold NonceManager.getNonce
  split <;> rfl

/-- Every nonce issued by a call sequence lies strictly above the initial
stored value, and consecutive nonces increase strictly. -/
theorem runNonceCalls_chain_from (clocks : List Nat) (s : NonceManager) :
    List.Chain (· < ·) s.lastNonce (runNonceCalls s clocks) := by
  induction clocks generalizing s with
  | nil => exact List.Chain.nil
  | cons now rest ih =>
    refine List.Chain.cons (getNonce_gt_lastNonce s now) ?_
    have h := ih (s.getNonce now).2
    rwa [getNonce_stores_issued] at h

/-- With a symbol-conversion instance present, the conversion loop rewrites
every order's coin to display form and cannot fail. -/
theorem convertOrderCoins_some (sc : SymbolConversionInst) (l : List OpenOrder) :
    convertOrderCoins (some sc) l =
      .ok (l.map (fun o => { o with coin := sc.convertSymbol o.coin })) := by
  induction l with
  | nil => rfl
  | cons o rest ih =>
    show (derefSC (some sc) "convertSymbol" >>= fun s =>
      convertOrderCoins (some sc) rest >>= fun rest2 =>
      Except.ok ({ o with coin := s.convertSymbol o.coin } :: rest2)) = _
    rw [ih]
    rfl

/-- Filtering a mapped list is mapping the list filtered on the composed
predicate. -/
theorem filter_map_comm (f : OpenOrder → OpenOrder) (p : OpenOrder → Bool)
    (l : List OpenOrder) :
    (l.map f).filter p = (l.filter (fun o => p (f o))).map f := by
  induction l with
  | nil => rfl
  | cons o rest ih =>
    by_cases h : p (f o) <;> simp [List.filter, h, ih]

/-- Characterization of `cancelAllOrders` when the client holds a
symbol-conversion instance. -/
theorem cancelAllOrders_some (sc : SymbolConversionInst) (symbol : Option String)
    (l : List OpenOrder) :
    cancelAllOrders (some sc) symbol l =
      (let converted := l.map (fun o => { o with coin := sc.convertSymbol o.coin });
       let ordersToCancel :=
         match symbol with
         | some s => converted.filter (fun (o : OpenOrder) => o.coin == s)
         | none => converted;
       if ordersToCancel.isEmpty then
         Except.error (.jsError "No orders to cancel")
       else
         .ok (ordersToCancel.map (fun (o : OpenOrder) => (o.coin, o.oid)))) := by
  unfold cancelAllOrders
  rw [convertOrderCoins_some]
  rfl

/-- A successful `BigInt` hex conversion forces the `0x`-plus-digits shape. -/
theorem parseBigIntHex_shape {d : String} {n : Nat} (h : parseBigIntHex? d = some n) :
    ∃ rest, d.data = '0' :: 'x' :: rest ∧ rest ≠ [] := by
  unfold parseBigIntHex? at h
  cases hd : d.data with
  | nil => rw [hd] at h; exact absurd h (by simp)
  | cons c0 tl =>
    cases htl : tl with
    | nil => rw [hd, htl] at h; exact absurd h (by simp)
    | cons c1 rest =>
      rw [hd, htl] at h
      have h2 : (if c0 = '0' ∧ c1 = 'x' ∧ rest ≠ [] then parseHexAux 0 rest
          else none) = some n := h
      by_cases hc : c0 = '0' ∧ c1 = 'x' ∧ rest ≠ []
      · refine ⟨rest, ?_, hc.2.2⟩
        rw [hc.1, hc.2.1]
      · rw [if_neg hc] at h2; exact absurd h2 (by simp)

/-- A raw result whose `BigInt` conversion succeeds decodes to the encoded
integer. -/
theorem decode_valid {d : String} {n : Nat} (h : parseBigIntHex? d = some n) :
    decodeReturnData (some d) = n := by
  obtain ⟨rest, hdata, hrest⟩ := parseBigIntHex_shape h
  have hne : d ≠ "" := by
    intro hd; rw [hd] at hdata; exact absurd hdata (by simp)
  have hne2 : d ≠ "0x" := by
    intro hd
    rw [hd] at hdata
    have hr : rest = [] := by
      have hx : (['0', 'x'] : List Char) = '0' :: 'x' :: rest := hdata
      simpa using hx.symm
    exact hrest hr
  have hsw : strStartsWith d "0x" = true := by
    unfold strStartsWith
    rw [hdata]
    simp [List.isPrefixOf]
  show (if d = "" ∨ d = "0x" then 0
    else (parseBigIntHex? (if strStartsWith d "0x" then d else "0x" ++ d)).getD 0) = n
  rw [if_neg (by simp [hne, hne2]), if_pos hsw, h]
  rfl

end HL

namespace HL

/-!
## Claim theorems
-/

/-- C1: every `getNonce` call returns the current wall-clock value when it is
strictly greater than the last issued nonce and `lastIssued + 1` otherwise,
updates the stored last-issued value to the returned nonce, and any sequence
of calls — driven by an arbitrary (e.g. constant, same-instant) clock list —
returns strictly increasing, duplicate-free nonces. -/
theorem claim_C1_nonce_monotonicity :
    (∀ (s : NonceManager) (now : Nat),
        (s.getNonce now).1 = (if s.lastNonce < now then now else s.lastNonce + 1) ∧
        (s.getNonce now).2.lastNonce = (s.getNonce now).1) ∧
    (∀ (clocks : List Nat) (s : NonceManager),
        List.Chain' (· < ·) (runNonceCalls s clocks)) := by
  constructor
  · intro s now
    refine ⟨?_, getNonce_stores_issued s now⟩
    unfold NonceManager.getNonce
    rcases Nat.lt_or_ge s.lastNonce now with h | h
    · rw [if_neg (by omega), if_pos h]
    · rw [if_pos (by omega), if_neg (by omega)]
  · intro clocks s
    have h : List.Chain' (· < ·) (s.lastNonce :: runNonceCalls s clocks) :=
      runNonceCalls_chain_from clocks s
    exact h.tail

/-- C2: the validator raises `ApiRequestError` (carrying the envelope)
exactly when the envelope status is `"err"`, or the response type is a bulk
action (`"order"`/`"cancel"`) and some entry of `data.statuses` is an object
with an `"error"` field; for every other envelope the request path returns
the envelope unchanged. -/
theorem claim_C2_validator (r : ResponseEnvelope) :
    (validateResponse r = .error (.apiRequestError r) ↔
      (r.status = "err" ∨ ((r.rtype = "order" ∨ r.rtype = "cancel") ∧
        r.statuses.any BulkStatus.isErrorObj = true))) ∧
    (¬ (r.status = "err" ∨ ((r.rtype = "order" ∨ r.rtype = "cancel") ∧
        r.statuses.any BulkStatus.isErrorObj = true)) →
      requestPath r = .ok r) := by
  have hval : validateResponse r = .error (.apiRequestError r) ↔
      (r.status = "err" ∨ ((r.rtype = "order" ∨ r.rtype = "cancel") ∧
        r.statuses.any BulkStatus.isErrorObj = true)) := by
    unfold validateResponse
    split
    · simp_all
    · split
      · split <;> simp_all
      · simp_all
  refine ⟨hval, fun hnot => ?_⟩
  unfold requestPath
  have hok : validateResponse r = .ok () := by
    unfold validateResponse
    split
    · exact absurd (Or.inl (by assumption)) hnot
    · split
      · split
        · exact absurd (Or.inr ⟨by assumption, by assumption⟩) hnot
        · rfl
      · rfl
  rw [hok]

/-- C2 witness: an all-ok bulk order response passes the validator and is
returned unchanged by the request path. -/
theorem claim_C2_validator_witness :
    requestPath ⟨"ok", "order", [.strStatus "success", .objStatus ["resting"]]⟩ =
      .ok ⟨"ok", "order", [.strStatus "success", .objStatus ["resting"]]⟩ :=
  (claim_C2_validator ⟨"ok", "order", [.strStatus "success", .objStatus ["resting"]]⟩).2
    (by decide)

/-- C3 counterexample: an `orderUpdates` subscription created for user
`"0xaaa"` does invoke its listener for a message on the same channel whose
user identity is `"0xbbb"` (and likewise `notification`): the source
registers those handlers without any per-message guard, so the claim's
never-invoked guarantee fails for the subscription kinds it lists. -/
theorem claim_C3_counterexample :
    orderUpdatesInvokes "0xaaa" ⟨"0xbbb", ["order"]⟩ = true ∧
    notificationInvokes "0xaaa" ⟨"0xbbb", "note"⟩ = true ∧
    ("0xbbb" : String) ≠ "0xaaa" :=
  ⟨rfl, rfl, by decide⟩

/-- C3 amended: the coin-scoped subscriptions (`bbo`, `activeAssetCtx`,
`candle`, `l2Book`, `trades`) never invoke their listener for a message
whose coin differs from the subscription's request coin;
`activeAssetData` additionally never fires on a user mismatch and
`userFills` never fires unless the message user equals the lowercased
subscription user; but `orderUpdates` and `notification` invoke their
listener for every message on the channel, with no identity check. -/
theorem claim_C3_amended_filtering :
    (∀ rc mc : String, mc ≠ rc → bboInvokes rc mc = false) ∧
    (∀ rc mc : String, mc ≠ rc → activeAssetCtxInvokes rc mc = false) ∧
    (∀ rc ms : String, ms ≠ rc → candleInvokes rc ms = false) ∧
    (∀ rc mc : String, mc ≠ rc → l2BookInvokes rc mc = false) ∧
    (∀ (rc : String) (cs : List String) (c : String),
        cs.head? = some c → c ≠ rc → tradesInvokes rc cs = false) ∧
    (∀ rc su mc mu : String, mc ≠ rc → activeAssetDataInvokes rc su mc mu = false) ∧
    (∀ rc su mc mu : String, strToLower mu ≠ strToLower su →
        activeAssetDataInvokes rc su mc mu = false) ∧
    (∀ su mu : String, mu ≠ strToLower su → userFillsInvokes su mu = false) ∧
    (∀ (su : String) (e : OrderUpdatesEvent), orderUpdatesInvokes su e = true) ∧
    (∀ (su : String) (e : NotificationEvent), notificationInvokes su e = true) := by
  refine ⟨?_, ?_, ?_, ?_, ?_, ?_, ?_, ?_, ?_, ?_⟩
  · intro rc mc h; simp [bboInvokes, h]
  · intro rc mc h; simp [activeAssetCtxInvokes, h]
  · intro rc ms h; simp [candleInvokes, h]
  · intro rc mc h; simp [l2BookInvokes, h]
  · intro rc cs c h1 h2; simp [tradesInvokes, h1, h2]
  · intro rc su mc mu h; simp [activeAssetDataInvokes, h]
  · intro rc su mc mu h; simp [activeAssetDataInvokes, h]
  · intro su mu h; simp [userFillsInvokes, h]
  · intro su e; rfl
  · intro su e; rfl

/-- C3 amended witness: a `bbo` subscription registered for `"BTC"` is not
invoked for an `"ETH"` message, while an `orderUpdates` subscription for
one user is invoked for another user's message. -/
theorem claim_C3_amended_filtering_witness :
    bboInvokes "BTC" "ETH" = false ∧
    orderUpdatesInvokes "0xaaa" ⟨"0xbbb", ["order"]⟩ = true :=
  ⟨claim_C3_amended_filtering.1 "BTC" "ETH" (by decide),
   (claim_C3_amended_filtering.2.2.2.2.2.2.2.2.1 : ∀ su e, orderUpdatesInvokes su e = true)
     "0xaaa" ⟨"0xbbb", ["order"]⟩⟩

end HL

namespace HL

/-- C4: for a market close of an existing position, the order side is buy iff
the signed size is negative, and the submitted limit price is the reference
price scaled by `1 + f` for a closing buy and `1 - f` for a closing sell,
rounded to 8 decimals for spot symbols and to one fewer decimal place than
the reference price's own precision `d` (clamped at zero, as the source's
`Math.max(0, decimals - 1)`) for perpetuals; in particular position size
`-2.5`, reference price `100`, slippage `0.05` yields price `105` on a buy. -/
theorem claim_C4_market_close_price :
    (∀ (symbol : String) (size? : Option ℚ) (px slippage mid : ℚ) (d : Nat)
        (cloid : Option String) (positions : List AssetPosition) (pos : AssetPosition),
      positions.find? (fun q => q.coin == symbol) = some pos → px ≠ 0 →
      ∃ o : IocOrder,
        marketClose symbol size? (some px) slippage mid d cloid positions = .ok o ∧
        (o.b = true ↔ pos.szi < 0) ∧
        o.p = roundToDecimals (if isSpotSymbol symbol then 8 else d - 1)
                (px * (if pos.szi < 0 then 1 + slippage else 1 - slippage))) ∧
    marketClose "BTC" none (some 100) (1/20) 0 0 none [⟨"BTC", -(5/2)⟩] =
      .ok { a := "BTC", b := true, s := 5/2, p := 105, r := true, cloid := none } := by
  constructor
  · intro symbol size? px slippage mid d cloid positions pos hfind hpx
    refine ⟨{ a := symbol, b := decide (pos.szi < 0),
              s := (match size? with
                    | some sz => if sz = 0 then |pos.szi| else sz
                    | none => |pos.szi|),
              p := getSlippagePrice symbol (decide (pos.szi < 0)) slippage (some px) mid d,
              r := true, cloid := cloid }, ?_, ?_, ?_⟩
    · unfold marketClose
      rw [hfind]
    · simp
    · simp only [getSlippagePrice, effectiveRefPx, hpx, if_neg]
      by_cases hb : pos.szi < 0 <;> simp [hb]
  · simp [marketClose, List.find?, getSlippagePrice, effectiveRefPx, isSpotSymbol,
      strContainsSub, roundToDecimals]
    norm_num [round_eq]

/-- C4 witness: closing a long position of size 3 on `"ETH"` at caller price
10 with slippage 0.1 is a sell at the scaled-down rounded price. -/
theorem claim_C4_market_close_price_witness :
    ∃ o : IocOrder,
      marketClose "ETH" none (some 10) (1/10) 0 1 none [⟨"ETH", 3⟩] = .ok o ∧
      (o.b = true ↔ (⟨"ETH", 3⟩ : AssetPosition).szi < 0) ∧
      o.p = roundToDecimals (if isSpotSymbol "ETH" then 8 else 1 - 1)
              (10 * (if (⟨"ETH", 3⟩ : AssetPosition).szi < 0 then 1 + 1/10 else 1 - 1/10)) :=
  claim_C4_market_close_price.1 "ETH" none 10 (1/10) 0 1 none [⟨"ETH", 3⟩] ⟨"ETH", 3⟩
    (by rfl) (by norm_num)

/-- C5: with an explicit symbol filter, cancel-by-category first translates
every open order's coin to display form and the single submitted cancel
batch references exactly the order ids whose translated coin equals the
filter symbol and no others; a `"BTC"` filter over BTC and ETH orders
yields a batch with only the BTC order id. -/
theorem claim_C5_cancel_filter :
    (∀ (sc : SymbolConversionInst) (s : String) (openOrders : List OpenOrder),
      openOrders.filter (fun o => sc.convertSymbol o.coin == s) ≠ [] →
      cancelAllOrders (some sc) (some s) openOrders =
        .ok ((openOrders.filter (fun o => sc.convertSymbol o.coin == s)).map
          (fun o => (sc.convertSymbol o.coin, o.oid)))) ∧
    cancelAllOrders
      (some { convertSymbol := fun c =>
                if c == "BTC-PERP" then "BTC" else if c == "ETH-PERP" then "ETH" else c,
              allAssetsPerp := ["BTC", "ETH"], allAssetsSpot := [] })
      (some "BTC") [⟨"BTC-PERP", 17⟩, ⟨"ETH-PERP", 42⟩] = .ok [("BTC", 17)] := by
  constructor
  · intro sc s openOrders h
    rw [cancelAllOrders_some]
    simp only [filter_map_comm]
    simp only [List.map_map]
    simp only [List.isEmpty_eq_true]
    simp [h]
  · rfl

/-- C5 witness: a single order translated to `"SOL"` and filtered on
`"SOL"` survives the filter, so the theorem applies and yields the batch
with exactly that order id. -/
theorem claim_C5_cancel_filter_witness :
    cancelAllOrders (some { convertSymbol := fun _ => "SOL",
                            allAssetsPerp := [], allAssetsSpot := [] })
      (some "SOL") [⟨"SOL-PERP", 7⟩] =
      .ok (([⟨"SOL-PERP", 7⟩] : List OpenOrder).filter
            (fun _ => ("SOL" : String) == "SOL") |>.map (fun o => ("SOL", o.oid))) :=
  claim_C5_cancel_filter.1
    { convertSymbol := fun _ => "SOL", allAssetsPerp := [], allAssetsSpot := [] }
    "SOL" [⟨"SOL-PERP", 7⟩] (by decide)

end HL

namespace HL

/-- C6: with an unmet precondition no signed action is built (the operation
ends in `.error`, never producing a batch or order): cancel-by-category
fails with the no-orders error exactly when the filtered set of (translated)
open orders is empty, and market-close fails with the position-not-found
error exactly when no position matches the requested symbol. -/
theorem claim_C6_precondition_errors :
    (∀ (sc : SymbolConversionInst) (symbol : Option String) (l : List OpenOrder),
      cancelAllOrders (some sc) symbol l = .error (.jsError "No orders to cancel") ↔
        (match symbol with
         | some s => (l.map (fun o => ({ o with coin := sc.convertSymbol o.coin } : OpenOrder))).filter
             (fun (o : OpenOrder) => o.coin == s)
         | none => l.map (fun o => { o with coin := sc.convertSymbol o.coin })) = []) ∧
    (∀ (symbol : String) (size? pxArg : Option ℚ) (slippage mid : ℚ) (d : Nat)
        (cloid : Option String) (positions : List AssetPosition),
      marketClose symbol size? pxArg slippage mid d cloid positions =
          .error (.jsError ("No position found for " ++ symbol)) ↔
        positions.find? (fun pos => pos.coin == symbol) = none) := by
  constructor
  · intro sc symbol l
    rw [cancelAllOrders_some]
    cases symbol <;> simp [List.isEmpty_eq_true]
  · intro symbol size? pxArg slippage mid d cloid positions
    unfold marketClose
    cases h : positions.find? (fun pos => pos.coin == symbol) <;> simp

/-- C6 witness: with no open orders the cancel helper fails with the
no-orders error, and with no positions market-close fails with the
position-not-found error. -/
theorem claim_C6_precondition_errors_witness :
    cancelAllOrders (some { convertSymbol := fun c => c,
                            allAssetsPerp := [], allAssetsSpot := [] })
        (some "BTC") [] = .error (.jsError "No orders to cancel") ∧
    marketClose "BTC" none none (1/20) 0 0 none [] =
      .error (.jsError ("No position found for " ++ "BTC")) :=
  ⟨(claim_C6_precondition_errors.1
      { convertSymbol := fun c => c, allAssetsPerp := [], allAssetsSpot := [] }
      (some "BTC") []).mpr (by rfl),
   (claim_C6_precondition_errors.2 "BTC" none none (1/20) 0 0 none []).mpr (by rfl)⟩

/-- C7: chain-id resolution follows the precedence explicit config, then the
wallet-reported chain (viem `getChainId`, ethers `provider.getNetwork`,
`window.ethereum` `eth_chainId`), then the static default chosen by the
testnet flag (`0x66eee` testnet, `0xa4b1` mainnet); for every wallet whose
`eth_chainId` response is well-formed the resolution yields a chain id —
it never fails, always falling through to the static default. -/
theorem claim_C7_chain_id_resolution :
    (∀ (cfg : String) (w : Wallet) (t : Bool),
        getSignatureChainId (some cfg) w t = some cfg) ∧
    (∀ (w : Wallet) (t : Bool),
        getSignatureChainId none w t = guessSignatureChainId w t) ∧
    (∀ (c : Nat) (t : Bool),
        guessSignatureChainId (.viem (some c)) t = some (toHexChainId c)) ∧
    (∀ (c : Nat) (t : Bool),
        guessSignatureChainId (.ethers (some c)) t = some (toHexChainId c)) ∧
    (∀ (c : Nat) (t : Bool),
        guessSignatureChainId (.ethersV5 (some c)) t = some (toHexChainId c)) ∧
    (∀ (h : String) (rest : List String) (t : Bool),
        guessSignatureChainId (.windowEthereum (h :: rest)) t = some h) ∧
    (∀ (w : Wallet) (t : Bool),
        (w = .viem none ∨ w = .ethers none ∨ w = .ethersV5 none ∨ w = .otherWallet) →
        guessSignatureChainId w t = some (defaultChainId t)) ∧
    (defaultChainId true = "0x66eee" ∧ defaultChainId false = "0xa4b1") ∧
    (∀ (w : Wallet) (t : Bool) (cfg : Option String),
        (∀ resp, w = .windowEthereum resp → resp ≠ []) →
        (getSignatureChainId cfg w t).isSome = true) := by
  refine ⟨fun cfg w t => rfl, fun w t => rfl, fun c t => rfl, fun c t => rfl,
    fun c t => rfl, fun h rest t => rfl, ?_, ⟨rfl, rfl⟩, ?_⟩
  · intro w t h
    rcases h with h | h | h | h <;> subst h <;> rfl
  · intro w t cfg hw
    cases cfg with
    | some c => rfl
    | none =>
      cases w with
      | viem oc => cases oc <;> rfl
      | ethers oc => cases oc <;> rfl
      | ethersV5 oc => cases oc <;> rfl
      | otherWallet => rfl
      | windowEthereum resp =>
        cases resp with
        | nil => exact absurd rfl (hw [] rfl)
        | cons h rest => rfl

/-- C7 witness: a viem wallet without `getChainId` on testnet resolves to
the testnet default, and resolution for a mainnet wallet with no config
yields a chain id. -/
theorem claim_C7_chain_id_resolution_witness :
    guessSignatureChainId (Wallet.viem none) true = some (defaultChainId true) ∧
    (getSignatureChainId none Wallet.otherWallet false).isSome = true :=
  ⟨claim_C7_chain_id_resolution.2.2.2.2.2.2.1 (Wallet.viem none) true (Or.inl rfl),
   claim_C7_chain_id_resolution.2.2.2.2.2.2.2.2 Wallet.otherWallet false none
     (by intro resp h; cases h)⟩

end HL

namespace HL

/-- C8: in the batched balance lookup a missing, empty (`"0x"` or `""`) or
malformed (non-decodable hex) positional result decodes to balance `0`
instead of raising, every decodable result decodes to the integer it
encodes, the batch always yields one balance per token with entry `i`
decoded from raw result `i`, and the example raw results
`["0x", "0x…02"]` decode to balances `[0, 2]`. -/
theorem claim_C8_decode_fallback :
    decodeReturnData none = 0 ∧
    decodeReturnData (some "") = 0 ∧
    decodeReturnData (some "0x") = 0 ∧
    (∀ d : String,
      parseBigIntHex? (if strStartsWith d "0x" then d else "0x" ++ d) = none →
      decodeReturnData (some d) = 0) ∧
    (∀ (d : String) (n : Nat), parseBigIntHex? d = some n →
      decodeReturnData (some d) = n) ∧
    (∀ (tokens : List TokenInfo) (rd : List String),
      (processBalances tokens rd).length = tokens.length) ∧
    (∀ (tokens : List TokenInfo) (rd : List String) (i : Nat),
      ((processBalances tokens rd).get? i).map TokenBalance.balance =
        (tokens.get? i).map (fun _ => decodeReturnData (rd.get? i))) ∧
    (processBalances
      [{ address := "0xt1", symbol := some "A", decimals := some 6 },
       { address := "0xt2", symbol := some "B", decimals := none }]
      ["0x", "0x0000000000000000000000000000000000000000000000000000000000000002"]).map
        TokenBalance.balance = [0, 2] := by
  refine ⟨rfl, rfl, rfl, ?_, fun d n h => decode_valid h, ?_, ?_, by decide⟩
  · intro d h
    show (if d = "" ∨ d = "0x" then 0
      else (parseBigIntHex? (if strStartsWith d "0x" then d else "0x" ++ d)).getD 0) = 0
    by_cases h1 : d = "" ∨ d = "0x"
    · simp [h1]
    · simp [h1, h]
  · intro tokens rd
    simp [processBalances]
  · intro tokens rd i
    unfold processBalances
    rw [List.get?_map, List.get?_enum]
    cases tokens.get? i <;> simp

/-- C8 witness: the malformed result `"0xzz"` decodes to balance `0` and the
decodable result `"0x02"` to `2`. -/
theorem claim_C8_decode_fallback_witness :
    decodeReturnData (some "0xzz") = 0 ∧ decodeReturnData (some "0x02") = 2 :=
  ⟨claim_C8_decode_fallback.2.2.2.1 "0xzz" (by rfl),
   claim_C8_decode_fallback.2.2.2.2.1 "0x02" 2 (by rfl)⟩

/-- C9: `getTokenBalances` never rejects — when the whole multicall request
fails it resolves with the wallet address, no block number and an empty
balance list (and on success with the decoded batch); `getNativeBalance`
likewise resolves with a zero HYPE balance on any transport error.  Both
embeddings are total functions into plain results, mirroring the sources'
outer `try`/`catch` blocks that return instead of rethrowing. -/
theorem claim_C9_batch_failure_absorbed :
    (∀ (w : String) (tokens : List TokenInfo) (err : String),
      getTokenBalances w tokens (.error err) =
        { walletAddress := w, blockNumber := none, balances := [] }) ∧
    (∀ (w : String) (tokens : List TokenInfo) (bn : Nat) (rd : List String),
      getTokenBalances w tokens (.ok (bn, rd)) =
        { walletAddress := w, blockNumber := some bn,
          balances := processBalances tokens rd }) ∧
    (∀ (w err : String),
      getNativeBalance w (.error err) =
        { address := zeroAddress, symbol := some "HYPE", balance := 0,
          decimals := some 18 }) ∧
    (∀ (w : String) (v : Nat),
      getNativeBalance w (.ok v) =
        { address := zeroAddress, symbol := some "HYPE", balance := v,
          decimals := some 18 }) :=
  ⟨fun w tokens err => rfl, fun w tokens bn rd => rfl, fun w err => rfl,
   fun w v => rfl⟩

/-- C10: when the client was constructed without a symbol-conversion
instance, each derived cancel operation dereferences the missing instance
and throws a `TypeError` before any cancel batch is produced (the result
is an error, never a batch): `cancelAllOrders` throws from the
`convertSymbol` call as soon as at least one open order exists, and the
spot/perp variants throw from the `getAllAssets` access. -/
theorem claim_C10_missing_symbol_conversion :
    (∀ (symbol : Option String) (l : List OpenOrder), l ≠ [] →
      cancelAllOrders none symbol l = .error (.typeError "convertSymbol of undefined")) ∧
    (∀ l : List OpenOrder,
      cancelAllSpotOrders none l = .error (.typeError "getAllAssets of undefined")) ∧
    (∀ l : List OpenOrder,
      cancelAllPerpOrders none l = .error (.typeError "getAllAssets of undefined")) := by
  refine ⟨?_, fun l => rfl, fun l => rfl⟩
  intro symbol l h
  cases l with
  | nil => exact absurd rfl h
  | cons o rest => rfl

/-- C10 witness: with one open BTC order and no symbol-conversion instance,
`cancelAllOrders` fails with the `TypeError` from the undefined
dereference. -/
theorem claim_C10_missing_symbol_conversion_witness :
    cancelAllOrders none (some "BTC") [⟨"BTC", 1⟩] =
      .error (.typeError "convertSymbol of undefined") :=
  claim_C10_missing_symbol_conversion.1 (some "BTC") [⟨"BTC", 1⟩] (by decide)

end HL
